import Mathlib

/-!
Verification development for the company-on backend (document ingestion
pipeline and hybrid retrieval engine).

The Python services are shallowly embedded as Lean functions:

* `backend/app/services/text_chunker.py` — sentence grouping into chunks.
  The tokenizer (tiktoken `cl100k_base`) and the sentence-splitting regex are
  external dependencies; they enter the embedding as the parameter
  `tok : String → Nat` (the value of `len(self.tokenizer.encode(s))`) and as
  the sentence list already produced by the splitter.
* `backend/app/services/excel_processing_service.py` — row-group rendering.
  pandas/openpyxl cell extraction is external; a data row is modelled as a
  `List (Option String)` where `none` stands for an absent (NaN) cell and
  `some v` for the cell's `str(value)`.
* `backend/app/services/embedding_service.py` — L2 normalization, with Python
  floats modelled as real numbers.
* `backend/app/services/search_service.py` — BM25/dense fusion.  The SQL
  queries run in the external store; each sub-search takes the outcome of its
  `db.execute(...).fetchall()` call as an `Except String (List _)` argument
  (`.error` = the call raised).  Scores are modelled as rationals.
* `backend/app/services/document_processing_service.py` — the orchestrator,
  as a state transformer over the relevant database rows; the outcome of each
  external step (MinIO download, parsing, chunking, embedding) is injected
  through `PipelineEnv`.
-/

/-! ### String helpers -/

/-- Substring test on character lists: `pat` occurs inside `l`
(Python's `pat in s`). -/
def containsAux (pat : List Char) : List Char → Bool
  | [] => pat.isPrefixOf []
  | c :: rest => pat.isPrefixOf (c :: rest) || containsAux pat rest

/-- `strContainsSub hay pat` is Python's `pat in hay` for strings. -/
def strContainsSub (hay pat : String) : Bool :=
  containsAux pat.toList hay.toList

/-- Python's `str.strip()`: drop leading and trailing whitespace (modelled on
the character list so that it computes in the kernel). -/
def pyStrip (s : String) : String :=
  ⟨((s.data.dropWhile Char.isWhitespace).reverse.dropWhile Char.isWhitespace).reverse⟩

/-- Python's `str.lower()`. -/
def pyLower (s : String) : String :=
  ⟨s.data.map Char.toLower⟩

/-! ### Text chunker (`text_chunker.py`) -/

/-- Constructor arguments of `TextChunker.__init__`. -/
structure TextChunkerCfg where
  chunk_size : Nat
  chunk_overlap : Nat
  max_chunk_size : Nat
deriving DecidableEq, Repr

/-- The default configuration: `chunk_size=512, chunk_overlap=50,
max_chunk_size=1024`. -/
def textChunkerDefault : TextChunkerCfg :=
  { chunk_size := 512, chunk_overlap := 50, max_chunk_size := 1024 }

/-- The `metadata` dict built by `_create_chunk_data` / mutated by
`_optimize_chunks`.  The float field `avg_sentence_length` is never read
anywhere in the code and is omitted. -/
structure ChunkMeta where
  chunk_size : Nat
  sentence_count : Nat
  first_sentence : String
  last_sentence : String
deriving DecidableEq, Repr

/-- A chunk dict as produced by `_create_chunk_data`. -/
structure Chunk where
  document_id : Nat
  chunk_index : Nat
  content : String
  token_count : Nat
  sentence_count : Nat
  char_count : Nat
  metadata : ChunkMeta
deriving DecidableEq, Repr

/-- `TextChunker._create_chunk_data`. -/
def _create_chunk_data (sentences : List String) (token_count chunk_index document_id : Nat) :
    Chunk :=
  let chunk_text := String.intercalate " " sentences
  { document_id := document_id
    chunk_index := chunk_index
    content := chunk_text
    token_count := token_count
    sentence_count := sentences.length
    char_count := chunk_text.length
    metadata :=
      { chunk_size := token_count
        sentence_count := sentences.length
        first_sentence := (sentences.headD "").take 100
        last_sentence := (sentences.getLastD "").take 100 } }

/-- The backward walk of `_prepare_next_chunk`: iterate over the reversed
sentence list, prepending a sentence while the overlap budget allows, and stop
at the first sentence that does not fit. -/
def overlapWalk (cfg : TextChunkerCfg) (tok : String → Nat) :
    List String → List String → Nat → List String × Nat
  | [], ov, ot => (ov, ot)
  | s :: rest, ov, ot =>
    if ot + tok s ≤ cfg.chunk_overlap then overlapWalk cfg tok rest (s :: ov) (ot + tok s)
    else (ov, ot)

/-- `TextChunker._prepare_next_chunk`. -/
def _prepare_next_chunk (cfg : TextChunkerCfg) (tok : String → Nat)
    (current_chunk : List String) : List String × Nat :=
  if current_chunk = [] ∨ cfg.chunk_overlap = 0 then ([], 0)
  else overlapWalk cfg tok current_chunk.reverse [] 0

/-- The `for sentence in sentences` loop of `_create_chunks_from_sentences`,
with the trailing `if current_chunk:` flush.  State: remaining sentences,
`current_chunk`, `current_tokens`, `chunk_index`, `chunks` accumulator. -/
def createChunksLoop (cfg : TextChunkerCfg) (tok : String → Nat) (document_id : Nat) :
    List String → List String → Nat → Nat → List Chunk → List Chunk
  | [], cur, curTok, idx, acc =>
    if cur = [] then acc else acc ++ [_create_chunk_data cur curTok idx document_id]
  | s :: rest, cur, curTok, idx, acc =>
    let st := tok s
    if curTok + st ≤ cfg.chunk_size ∨ cur = [] then
      let cur' := cur ++ [s]
      let curTok' := curTok + st
      if cfg.max_chunk_size ≤ curTok' then
        let acc' := acc ++ [_create_chunk_data cur' curTok' idx document_id]
        let nx := _prepare_next_chunk cfg tok cur'
        createChunksLoop cfg tok document_id rest nx.1 nx.2 (idx + 1) acc'
      else
        createChunksLoop cfg tok document_id rest cur' curTok' idx acc
    else
      let acc' := acc ++ [_create_chunk_data cur curTok idx document_id]
      let nx := _prepare_next_chunk cfg tok cur
      createChunksLoop cfg tok document_id rest (nx.1 ++ [s]) (nx.2 + st) (idx + 1) acc'

/-- `TextChunker._create_chunks_from_sentences`. -/
def _create_chunks_from_sentences (cfg : TextChunkerCfg) (tok : String → Nat)
    (sentences : List String) (document_id : Nat) : List Chunk :=
  createChunksLoop cfg tok document_id sentences [] 0 0 []

/-- The in-place merge of `_optimize_chunks`: the short chunk is folded into
the previous one (`chunk_index` of the surviving chunk is not touched). -/
def mergeChunks (last c : Chunk) : Chunk :=
  let merged_tokens := last.token_count + c.token_count
  { last with
    content := last.content ++ " " ++ c.content
    token_count := merged_tokens
    sentence_count := last.sentence_count + c.sentence_count
    char_count := last.char_count + c.char_count
    metadata :=
      { last.metadata with
        chunk_size := merged_tokens
        sentence_count := last.sentence_count + c.sentence_count
        last_sentence := c.metadata.last_sentence } }

/-- The `for chunk in chunks` loop of `_optimize_chunks`. -/
def optimizeLoop (cfg : TextChunkerCfg) : List Chunk → List Chunk → List Chunk
  | acc, [] => acc
  | acc, c :: rest =>
    if c.token_count < cfg.chunk_size / 2 ∧ acc ≠ [] then
      let last := acc.getLastD c
      if last.token_count + c.token_count ≤ cfg.max_chunk_size then
        optimizeLoop cfg (acc.dropLast ++ [mergeChunks last c]) rest
      else optimizeLoop cfg (acc ++ [c]) rest
    else optimizeLoop cfg (acc ++ [c]) rest

/-- `TextChunker._optimize_chunks`. -/
def _optimize_chunks (cfg : TextChunkerCfg) (chunks : List Chunk) : List Chunk :=
  optimizeLoop cfg [] chunks

/-- Stages (2) and (3) of `TextChunker.chunk_text`, starting from the sentence
list produced by `_split_into_sentences`. -/
def chunk_from_sentences (cfg : TextChunkerCfg) (tok : String → Nat)
    (sentences : List String) (document_id : Nat) : List Chunk :=
  _optimize_chunks cfg (_create_chunks_from_sentences cfg tok sentences document_id)

/-- `TextChunker.chunk_text`; `split` stands for the external sentence-boundary
regex of `_split_into_sentences`. -/
def chunk_text (cfg : TextChunkerCfg) (tok : String → Nat) (split : String → List String)
    (text : String) (document_id : Nat) : List Chunk :=
  if pyStrip text = "" then [] else chunk_from_sentences cfg tok (split text) document_id

/-! ### Excel / CSV processing (`excel_processing_service.py`) -/

/-- Constructor constants of `ExcelProcessingService.__init__`. -/
structure ExcelCfg where
  max_rows_per_chunk : Nat
  max_cell_length : Nat
deriving DecidableEq, Repr

/-- `max_rows_per_chunk = 50`, `max_cell_length = 1000`. -/
def excelCfgDefault : ExcelCfg := { max_rows_per_chunk := 50, max_cell_length := 1000 }

/-- The `chunk_metadata` dict of a spreadsheet chunk. -/
structure ExcelChunkMeta where
  sheet_name : String
  filename : String
  chunk_index : Nat
  row_range : String
  total_columns : Nat
  rows_in_chunk : Nat
deriving DecidableEq, Repr

/-- A chunk dict as produced by `_process_dataframe` / `_process_sheet`. -/
structure ExcelChunk where
  content : String
  chunk_type : String
  chunk_metadata : ExcelChunkMeta
deriving DecidableEq, Repr

/-- Cell rendering of `_process_dataframe`: `str(value).strip()`, truncated at
`max_cell_length` with an ellipsis. -/
def renderCell (cfg : ExcelCfg) (v : String) : String :=
  let s := pyStrip v
  if cfg.max_cell_length < s.length then s.take cfg.max_cell_length ++ "..." else s

/-- The `header=value` pairs of one row in `_create_chunk_content`; cells whose
rendered value is the empty string are omitted, and `zip` drops cells beyond
the header list. -/
def rowKVs (headers row_data : List String) : List String :=
  (headers.zip row_data).filterMap fun hv =>
    if hv.2 = "" then none else some (hv.1 ++ "=" ++ hv.2)

/-- One `"행 N: h1=v1 | h2=v2"` line of `_create_chunk_content`; the line is
emitted only when at least one pair survives. -/
def rowLine (headers : List String) (r : Nat × List String) : Option String :=
  let vals := rowKVs headers r.2
  if vals.isEmpty then none
  else some ("행 " ++ toString r.1 ++ ": " ++ String.intercalate " | " vals)

/-- `ExcelProcessingService._create_chunk_content`. -/
def _create_chunk_content (headers : List String) (rows : List (Nat × List String))
    (sheet_name : String) : String :=
  String.intercalate "\n"
    (["=== " ++ sheet_name ++ " 데이터 ===",
      "컬럼: " ++ String.intercalate ", " headers,
      ""]
      ++ rows.filterMap (rowLine headers))

/-- The `row_range` metadata string `"{first}-{last}"`. -/
def excelRowRange (rows : List (Nat × List String)) : String :=
  toString (rows.headD (0, [])).1 ++ "-" ++ toString (rows.getLastD (0, [])).1

/-- Builds one chunk dict in `_process_dataframe` (the `sheet_name` metadata
field receives the `file_type` argument there). -/
def mkExcelChunk (headers : List String) (cur : List (Nat × List String))
    (sheet filename : String) (chunk_index : Nat) : ExcelChunk :=
  { content := _create_chunk_content headers cur sheet
    chunk_type := "excel_sheet"
    chunk_metadata :=
      { sheet_name := sheet
        filename := filename
        chunk_index := chunk_index
        row_range := excelRowRange cur
        total_columns := headers.length
        rows_in_chunk := cur.length } }

/-- The `for idx, row in df.iterrows()` loop of `_process_dataframe`.
State: remaining rows, current 0-based index, `current_chunk_rows`,
`current_chunk_index`, accumulated chunks; `total` is `len(df)`. -/
def processRowsLoop (cfg : ExcelCfg) (headers : List String) (filename file_type : String)
    (total : Nat) :
    List (List (Option String)) → Nat → List (Nat × List String) → Nat → List ExcelChunk →
      List ExcelChunk
  | [], _, _, _, acc => acc
  | row :: rest, idx, cur, ci, acc =>
    let row_data := row.map fun cell =>
      match cell with
      | none => ""
      | some v => renderCell cfg v
    let has_data := row.any (·.isSome)
    let cur' := if has_data then cur ++ [(idx + 2, row_data)] else cur
    if cfg.max_rows_per_chunk ≤ cur'.length ∨ idx = total - 1 then
      if cur'.isEmpty then
        processRowsLoop cfg headers filename file_type total rest (idx + 1) [] ci acc
      else
        processRowsLoop cfg headers filename file_type total rest (idx + 1) [] (ci + 1)
          (acc ++ [mkExcelChunk headers cur' file_type filename ci])
    else
      processRowsLoop cfg headers filename file_type total rest (idx + 1) cur' ci acc

/-- `ExcelProcessingService._process_dataframe`.  The dataframe is given as a
header list (`str(col)` per column) and a list of rows, each a list of cells
(`none` = NaN). -/
def _process_dataframe (cfg : ExcelCfg) (headers0 : List String)
    (rows : List (List (Option String))) (filename file_type : String) : List ExcelChunk :=
  if rows.isEmpty then []
  else
    processRowsLoop cfg (headers0.map pyStrip) filename file_type rows.length rows 0 [] 0 []

/-! ### Embedding normalization (`embedding_service.py`) -/

/-- Sum of squares of a vector's entries. -/
def sumSquares (v : List ℝ) : ℝ := (v.map fun x => x * x).sum

/-- `np.linalg.norm(v)` for a 1-D array: the Euclidean norm. -/
noncomputable def l2_norm (v : List ℝ) : ℝ := Real.sqrt (sumSquares v)

/-- `EmbeddingService.normalize_embedding`: a zero-norm vector is returned
unchanged, otherwise every entry is divided by the norm. -/
noncomputable def normalize_embedding (v : List ℝ) : List ℝ :=
  if l2_norm v = 0 then v else v.map fun x => x / l2_norm v

/-! ### Hybrid search (`search_service.py`) -/

/-- A row returned by the BM25 SQL query (the `CASE` expression computed the
score in the store). -/
structure BmRow where
  id : Nat
  document_id : Nat
  content : String
  bm25_score : ℚ
deriving DecidableEq, Repr

/-- A row returned by the dense (pgvector) SQL query. -/
structure DenseRow where
  id : Nat
  document_id : Nat
  content : String
  dense_score : ℚ
deriving DecidableEq, Repr

/-- A result dict as built by `_bm25_search` / `_dense_search` and enriched by
`_combine_results`.  The carried-along `chunk_metadata`, `filename` and
`document_metadata` payload fields are inert for fusion and folded into
`chunk_text`-style payload here. -/
structure SearchRow where
  id : Nat
  document_id : Nat
  chunk_text : String
  bm25_score : ℚ
  dense_score : ℚ
  combined_score : ℚ
deriving DecidableEq, Repr

/-- The embedding client: `generate_embedding` as a remote call that may
fail. -/
abbrev EmbedBackend := String → Except String (List ℚ)

/-- `SearchService`: a database handle plus the `embedding_service`
attribute. -/
structure SearchService (Db : Type) where
  db : Db
  embedding_service : Option EmbedBackend

/-- `SearchService.__init__`: the embedding service is disabled
(`self.embedding_service = None`, "temporarily" per the comment about the SSL
error). -/
def SearchService.init {Db : Type} (db : Db) : SearchService Db :=
  { db := db, embedding_service := none }

/-- `get_search_service`. -/
def get_search_service {Db : Type} (db : Db) : SearchService Db :=
  SearchService.init db

/-- `SearchService._bm25_search`: any exception from the store yields `[]`;
rows are wrapped with `dense_score = 0`, `combined_score = 0`. -/
def _bm25_search (fetch : Except String (List BmRow)) : List SearchRow :=
  match fetch with
  | .error _ => []
  | .ok rows => rows.map fun r =>
      { id := r.id, document_id := r.document_id, chunk_text := r.content,
        bm25_score := r.bm25_score, dense_score := 0, combined_score := 0 }

/-- `SearchService._dense_search`: returns `[]` when `embedding_service is
None`, when the embedding call raises, or when the store query raises; rows
are wrapped with `bm25_score = 0`, `combined_score = 0`. -/
def _dense_search (svc : Option EmbedBackend) (query : String)
    (fetch : Except String (List DenseRow)) : List SearchRow :=
  match svc with
  | none => []
  | some embed =>
    match embed query with
    | .error _ => []
    | .ok _ =>
      match fetch with
      | .error _ => []
      | .ok rows => rows.map fun r =>
          { id := r.id, document_id := r.document_id, chunk_text := r.content,
            bm25_score := 0, dense_score := r.dense_score, combined_score := 0 }

/-- `combined_dict[chunk_id] = result.copy()`: replaces the value at an
existing key (keeping the key's insertion position, as a Python dict does) or
appends a new binding. -/
def dictUpsert (r : SearchRow) : List SearchRow → List SearchRow
  | [] => [r]
  | x :: xs => if x.id == r.id then r :: xs else x :: dictUpsert r xs

/-- The dense pass of `_combine_results`: an existing entry only gets its
`dense_score` updated, a new chunk id is appended. -/
def dictUpdateDense (r : SearchRow) : List SearchRow → List SearchRow
  | [] => [r]
  | x :: xs =>
    if x.id == r.id then { x with dense_score := r.dense_score } :: xs
    else x :: dictUpdateDense r xs

/-- The `combined_dict` of `_combine_results` after both insertion loops, in
dict insertion order. -/
def fuseResults (bm dn : List SearchRow) : List SearchRow :=
  dn.foldl (fun acc r => dictUpdateDense r acc) (bm.foldl (fun acc r => dictUpsert r acc) [])

/-- `(min(scores), max(scores)) if scores else (0, 1)`. -/
def minMaxOrDefault : List ℚ → ℚ × ℚ
  | [] => (0, 1)
  | x :: xs => (xs.foldl min x, xs.foldl max x)

/-- The per-row normalization of `_combine_results`: the affine min-max map
when the range is positive, the raw score otherwise. -/
def minMaxNorm (mn mx s : ℚ) : ℚ := if mn < mx then (s - mn) / (mx - mn) else s

/-- One iteration of the scoring loop of `_combine_results`. -/
def scoreRow (alpha beta bmn bmx dmn dmx : ℚ) (r : SearchRow) : SearchRow :=
  { r with
    combined_score :=
      alpha * minMaxNorm dmn dmx r.dense_score + beta * minMaxNorm bmn bmx r.bm25_score }

/-- Insertion step of a stable descending sort on `combined_score` (Python's
`sorted(..., key=..., reverse=True)` keeps equal keys in input order). -/
def insertDesc (a : SearchRow) : List SearchRow → List SearchRow
  | [] => [a]
  | b :: l => if b.combined_score ≤ a.combined_score then a :: b :: l else b :: insertDesc a l

/-- Stable descending sort on `combined_score`. -/
def sortByCombinedDesc : List SearchRow → List SearchRow
  | [] => []
  | a :: l => insertDesc a (sortByCombinedDesc l)

/-- `bm25_min, bm25_max` of `_combine_results`: min-max over the strictly
positive BM25 scores of the fused dict, `(0, 1)` when there are none. -/
def bmScoreBounds (fused : List SearchRow) : ℚ × ℚ :=
  minMaxOrDefault ((fused.filter fun r => decide (0 < r.bm25_score)).map (·.bm25_score))

/-- `dense_min, dense_max` of `_combine_results`. -/
def dnScoreBounds (fused : List SearchRow) : ℚ × ℚ :=
  minMaxOrDefault ((fused.filter fun r => decide (0 < r.dense_score)).map (·.dense_score))

/-- The fused candidate list after the scoring loop of `_combine_results`,
still in dict insertion order. -/
def scoredUnion (bm dn : List SearchRow) (alpha beta : ℚ) : List SearchRow :=
  let fused := fuseResults bm dn
  fused.map (scoreRow alpha beta (bmScoreBounds fused).1 (bmScoreBounds fused).2
    (dnScoreBounds fused).1 (dnScoreBounds fused).2)

/-- `SearchService._combine_results`: fuse the candidate dicts, min-max
normalize over the strictly positive scores of each kind, combine with
`alpha`/`beta`, and sort by combined score descending (stable). -/
def _combine_results (bm dn : List SearchRow) (alpha beta : ℚ) : List SearchRow :=
  sortByCombinedDesc (scoredUnion bm dn alpha beta)

/-- `SearchService.hybrid_search`.  The preprocessed query and the `limit * 2`
row caps only shape the SQL sent to the external store, so they are absorbed
into the `bmFetch` / `dnFetch` outcomes; the dense search receives the
original query.  The surrounding `try` re-raises only exceptions escaping the
sub-searches, and both sub-searches catch everything internally. -/
def SearchService.hybrid_search {Db : Type} (svc : SearchService Db)
    (bmFetch : Except String (List BmRow)) (dnFetch : Except String (List DenseRow))
    (query : String) (limit : Nat) (alpha beta : ℚ) : Except String (List SearchRow) :=
  .ok ((_combine_results (_bm25_search bmFetch)
        (_dense_search svc.embedding_service query dnFetch) alpha beta).take limit)

/-! ### Ingestion orchestrator (`document_processing_service.py`) -/

/-- The `upload_sessions` row for the processed upload id (`failure_type` and
`retryable` read by `get_processing_status` do not exist as columns on the
model — see the C6 analysis). -/
structure SessionRec where
  id : String
  filename : String
  status : String
  document_id : Option Nat
  error_message : Option String
deriving DecidableEq, Repr

/-- A `documents` row (fields relevant to the pipeline). -/
structure DocRec where
  id : Nat
  status : String
deriving DecidableEq, Repr

/-- Database state visible to one pipeline run, plus whether the temporary
download file currently exists on disk. -/
structure PipelineState where
  session : Option SessionRec
  documents : List DocRec
  next_doc_id : Nat
  temp_file_exists : Bool
deriving DecidableEq, Repr

/-- Outcomes of the external steps of one run: MinIO download, text
extraction, chunking, embedding+insert.  `.error m` means the step raised an
exception whose `str` is `m`. -/
structure PipelineEnv where
  download_ok : Bool
  extract : Except String Nat
  chunk : Except String Nat
  embed : Except String Unit

/-- The success payload of `process_document_pipeline`. -/
structure PipelineResult where
  document_id : Nat
  chunks_created : Nat
  total_tokens : Nat
deriving DecidableEq, Repr

/-- `_update_upload_status`: sets the session's status and (message being
always non-None in the pipeline) the `error_message` field; its own exceptions
are swallowed. -/
def updateUploadStatus (st : PipelineState) (status msg : String) : PipelineState :=
  { st with session := st.session.map fun s => { s with status := status, error_message := some msg } }

/-- The keyword list of `_determine_failure_type`. -/
def uploadFailureSignatures : List String :=
  ["file not found", "upload failed", "minio", "network",
   "connection", "timeout", "file size", "unsupported format"]

/-- `DocumentProcessingService._determine_failure_type`: lowercase the message
and look for any upload-layer keyword as a substring. -/
def _determine_failure_type (error : String) : String :=
  if uploadFailureSignatures.any (fun kw => strContainsSub (pyLower error) kw) then "upload_failed"
  else "processing_failed"

/-- `DocumentProcessingService._handle_processing_failure`.  The body calls
`UploadSessionService.fail_upload(upload_id, error_message, failure_type)`,
but `fail_upload` is declared with two parameters (`upload_id`,
`error_message`), so the call raises `TypeError` before touching the session;
the next call, `DocumentService.fail_document`, does not exist on
`DocumentService` at all.  Both would be caught by the handler's own
`except Exception` block, which only logs.  Net effect on the database state:
none — the handler is the identity. -/
def _handle_processing_failure (st : PipelineState) (_error_message _failure_type : String) :
    PipelineState :=
  st

/-- `DocumentProcessingService._create_document_record`: inserts a new
`documents` row (model default status `processing`). -/
def _create_document_record (st : PipelineState) : Nat × PipelineState :=
  (st.next_doc_id,
   { st with
     documents := st.documents ++ [{ id := st.next_doc_id, status := "processing" }]
     next_doc_id := st.next_doc_id + 1 })

/-- `DocumentProcessingService._get_or_create_document_record`: if the session
has a truthy `document_id` (Python truthiness: non-None and non-zero) and that
document exists, reuse it; otherwise create a new row. -/
def _get_or_create_document_record (st : PipelineState) (s : SessionRec) :
    Nat × PipelineState :=
  match s.document_id with
  | some d =>
    if d = 0 then _create_document_record st
    else
      match st.documents.find? (fun doc => doc.id == d) with
      | some _ => (d, st)
      | none => _create_document_record st
  | none => _create_document_record st

/-- `DocumentProcessingService._complete_upload_session`: mark the document
`completed`, then mark the session `completed`, link `document_id` and clear
`error_message`. -/
def _complete_upload_session (st : PipelineState) (docId : Nat) : PipelineState :=
  let st1 :=
    { st with
      documents := st.documents.map fun doc : DocRec =>
        if doc.id == docId then { doc with status := "completed" } else doc }
  { st1 with
    session := st1.session.map fun s =>
      { s with status := "completed", document_id := some docId, error_message := none } }

/-- The `try` body of `process_document_pipeline`, step by step.  The
temporary file is created inside `_download_file` after the MinIO fetch
succeeded; on the success path it is removed after `_complete_upload_session`
(`if os.path.exists(file_path): os.remove(file_path)`).  The `except` paths
return whatever state the run reached. -/
def pipelineCore (uid : String) (env : PipelineEnv) (st0 : PipelineState) :
    Except String PipelineResult × PipelineState :=
  match st0.session with
  | none => (.error ("업로드 세션을 찾을 수 없습니다: " ++ uid), st0)
  | some s0 =>
    let st1 := updateUploadStatus st0 "processing" "문서 처리 시작"
    if env.download_ok = false then
      (.error ("파일 다운로드 실패: uploads/" ++ s0.id ++ "/" ++ s0.filename), st1)
    else
      let st2 := updateUploadStatus { st1 with temp_file_exists := true } "processing"
        "파일 다운로드 완료"
      match env.extract with
      | .error m => (.error m, st2)
      | .ok tokens =>
        let st3 := updateUploadStatus st2 "processing" "텍스트 추출 완료"
        let dr := _get_or_create_document_record st3 s0
        let st5 := updateUploadStatus dr.2 "processing" "문서 레코드 확인 완료"
        match env.chunk with
        | .error m => (.error m, st5)
        | .ok nChunks =>
          let st6 := updateUploadStatus st5 "processing"
            ("텍스트 청킹 완료 (" ++ toString nChunks ++ "개 청크)")
          match env.embed with
          | .error m => (.error m, st6)
          | .ok _ =>
            let st7 := updateUploadStatus st6 "processing" "임베딩 생성 및 저장 완료"
            let st8 := _complete_upload_session st7 dr.1
            let st9 := { st8 with temp_file_exists := false }
            (.ok { document_id := dr.1, chunks_created := nChunks, total_tokens := tokens }, st9)

/-- `DocumentProcessingService.process_document_pipeline`: the `try` body plus
the `except` block (classify the failure, run the — inert — failure handler,
re-raise). -/
def process_document_pipeline (uid : String) (env : PipelineEnv) (st0 : PipelineState) :
    Except String PipelineResult × PipelineState :=
  match pipelineCore uid env st0 with
  | (.ok r, st) => (.ok r, st)
  | (.error m, st) => (.error m, _handle_processing_failure st m (_determine_failure_type m))

/-! ### Concrete data used in witnesses and counterexamples -/

/-- A default row (used only as a `headD` fallback). -/
def dummyRow : SearchRow :=
  { id := 0, document_id := 0, chunk_text := "", bm25_score := 0, dense_score := 0,
    combined_score := 0 }

/-- A keyword candidate with chunk id 2 (tied score). -/
def c2RowA : SearchRow :=
  { id := 2, document_id := 1, chunk_text := "alpha beta", bm25_score := 1, dense_score := 0,
    combined_score := 0 }

/-- A keyword candidate with chunk id 1 (tied score). -/
def c2RowB : SearchRow :=
  { id := 1, document_id := 1, chunk_text := "alpha gamma", bm25_score := 1, dense_score := 0,
    combined_score := 0 }

/-- Two keyword candidates with distinct scores (used by the C2 witness). -/
def c2BmTwo : List SearchRow :=
  [{ id := 4, document_id := 1, chunk_text := "delta", bm25_score := 1, dense_score := 0,
     combined_score := 0 },
   { id := 9, document_id := 2, chunk_text := "epsilon", bm25_score := 1/2, dense_score := 0,
     combined_score := 0 }]

/-- An embedding client whose remote call always raises (the SSL failure the
source comments mention). -/
def embedFailBackend : EmbedBackend := fun _ => .error "SSL: CERTIFICATE_VERIFY_FAILED"

/-- A BM25 row for the C10 witness. -/
def c10Row : BmRow := { id := 3, document_id := 1, content := "alpha beta", bm25_score := 1 }

/-- A pipeline environment where everything up to embedding succeeds and the
embedding step raises with a message matching no upload-layer signature. -/
def envEmbedFail : PipelineEnv :=
  { download_ok := true, extract := .ok 100, chunk := .ok 3,
    embed := .error "embedding model error" }

/-- A pipeline environment where every step succeeds. -/
def envAllOk : PipelineEnv :=
  { download_ok := true, extract := .ok 100, chunk := .ok 3, embed := .ok () }

/-- A pipeline environment where text extraction raises after the download
created the temporary file. -/
def envExtractFail : PipelineEnv :=
  { download_ok := true, extract := .error "PDF 파싱 실패", chunk := .ok 0, embed := .ok () }

/-- An upload session in `pending` with no linked document, over an empty
document table. -/
def stPending : PipelineState :=
  { session := some { id := "u1", filename := "a.pdf", status := "pending",
                      document_id := none, error_message := none },
    documents := [], next_doc_id := 1, temp_file_exists := false }

/-- An upload session already linked (by the upload-commit flow) to document 5,
which exists in the document table. -/
def stLinked : PipelineState :=
  { session := some { id := "u2", filename := "b.pdf", status := "pending",
                      document_id := some 5, error_message := none },
    documents := [{ id := 5, status := "processing" }], next_doc_id := 6,
    temp_file_exists := false }

/-! ### Lemmas about the fusion sort -/

theorem insertDesc_perm (a : SearchRow) (l : List SearchRow) :
    (insertDesc a l).Perm (a :: l) := by
  induction l with
  | nil => simp [insertDesc]
  | cons b t ih =>
    by_cases h : b.combined_score ≤ a.combined_score
    · simp [insertDesc, h]
    · simpa [insertDesc, h] using (ih.cons b).trans (List.Perm.swap a b t)

theorem sortByCombinedDesc_perm (l : List SearchRow) :
    (sortByCombinedDesc l).Perm l := by
  induction l with
  | nil => simp [sortByCombinedDesc]
  | cons a t ih => exact (insertDesc_perm a _).trans (ih.cons a)

theorem insertDesc_pairwise (a : SearchRow) (l : List SearchRow)
    (h : l.Pairwise fun x y => y.combined_score ≤ x.combined_score) :
    (insertDesc a l).Pairwise fun x y => y.combined_score ≤ x.combined_score := by
  induction l with
  | nil => simp [insertDesc]
  | cons b t ih =>
    rw [List.pairwise_cons] at h
    by_cases hc : b.combined_score ≤ a.combined_score
    · simp only [insertDesc, if_pos hc]
      refine List.Pairwise.cons ?_ (List.Pairwise.cons h.1 h.2)
      intro x hx
      rcases List.mem_cons.mp hx with rfl | hx
      · exact hc
      · exact le_trans (h.1 x hx) hc
    · simp only [insertDesc, if_neg hc]
      refine List.Pairwise.cons ?_ (ih h.2)
      intro x hx
      rcases List.mem_cons.mp ((insertDesc_perm a t).mem_iff.mp hx) with rfl | hx
      · exact le_of_not_le hc
      · exact h.1 x hx

theorem sortByCombinedDesc_pairwise (l : List SearchRow) :
    (sortByCombinedDesc l).Pairwise fun x y => y.combined_score ≤ x.combined_score := by
  induction l with
  | nil => simp [sortByCombinedDesc]
  | cons a t ih => exact insertDesc_pairwise a _ ih

theorem insertDesc_filter (a : SearchRow) (l : List SearchRow) (q : ℚ) :
    (insertDesc a l).filter (fun r => decide (r.combined_score = q)) =
      (a :: l).filter (fun r => decide (r.combined_score = q)) := by
  induction l with
  | nil => simp [insertDesc]
  | cons b t ih =>
    by_cases hc : b.combined_score ≤ a.combined_score
    · simp [insertDesc, hc]
    · simp only [insertDesc, if_neg hc]
      by_cases hb : b.combined_score = q
      · have ha : ¬ a.combined_score = q := by
          intro ha
          exact hc (by rw [hb, ha])
        simp [List.filter_cons, ha, hb, ih]
      · by_cases ha : a.combined_score = q
        · simp [List.filter_cons, ha, hb, ih]
        · simp [List.filter_cons, ha, hb, ih]

theorem sortByCombinedDesc_filter (l : List SearchRow) (q : ℚ) :
    (sortByCombinedDesc l).filter (fun r => decide (r.combined_score = q)) =
      l.filter (fun r => decide (r.combined_score = q)) := by
  induction l with
  | nil => simp [sortByCombinedDesc]
  | cons a t ih =>
    rw [sortByCombinedDesc, insertDesc_filter]
    by_cases ha : a.combined_score = q
    · simp [List.filter_cons, ha, ih]
    · simp [List.filter_cons, ha, ih]

/-! ### Lemmas about the fused candidate dict -/

theorem mem_dictUpsert (r x : SearchRow) (l : List SearchRow)
    (hx : x ∈ dictUpsert r l) : x = r ∨ x ∈ l := by
  induction l with
  | nil => exact Or.inl (by simpa [dictUpsert] using hx)
  | cons y ys ih =>
    by_cases h : y.id == r.id
    · rcases List.mem_cons.mp (by simpa [dictUpsert, h] using hx) with rfl | hmem
      · exact Or.inl rfl
      · exact Or.inr (List.mem_cons_of_mem y hmem)
    · rcases List.mem_cons.mp (by simpa [dictUpsert, h] using hx) with rfl | hmem
      · exact Or.inr (List.mem_cons_self x ys)
      · rcases ih hmem with h1 | h1
        · exact Or.inl h1
        · exact Or.inr (List.mem_cons_of_mem y h1)

theorem mem_foldl_dictUpsert (l : List SearchRow) (acc : List SearchRow) (x : SearchRow)
    (hx : x ∈ l.foldl (fun a r => dictUpsert r a) acc) : x ∈ acc ∨ x ∈ l := by
  induction l generalizing acc with
  | nil => exact Or.inl hx
  | cons r t ih =>
    rcases ih (dictUpsert r acc) (by simpa using hx) with h1 | h1
    · rcases mem_dictUpsert r x acc h1 with rfl | h2
      · exact Or.inr (List.mem_cons_self x t)
      · exact Or.inl h2
    · exact Or.inr (List.mem_cons_of_mem r h1)

theorem mem_dictUpdateDense_id (r x : SearchRow) (l : List SearchRow)
    (hx : x ∈ dictUpdateDense r l) : x.id = r.id ∨ x.id ∈ l.map (·.id) := by
  induction l with
  | nil =>
    have hxr : x = r := by simpa [dictUpdateDense] using hx
    exact Or.inl (by rw [hxr])
  | cons y ys ih =>
    by_cases h : y.id == r.id
    · rcases List.mem_cons.mp (by simpa [dictUpdateDense, h] using hx) with rfl | hmem
      · exact Or.inr (by simp)
      · exact Or.inr (by simp; exact Or.inr ⟨x, hmem, rfl⟩)
    · rcases List.mem_cons.mp (by simpa [dictUpdateDense, h] using hx) with rfl | hmem
      · exact Or.inr (by simp)
      · rcases ih hmem with h1 | h1
        · exact Or.inl h1
        · rcases List.mem_map.mp h1 with ⟨z, hz, hz2⟩
          exact Or.inr (List.mem_map.mpr ⟨z, List.mem_cons_of_mem y hz, hz2⟩)

theorem mem_foldl_dictUpdateDense_id (l : List SearchRow) (acc : List SearchRow) (x : SearchRow)
    (hx : x ∈ l.foldl (fun a r => dictUpdateDense r a) acc) :
    x.id ∈ acc.map (·.id) ∨ x.id ∈ l.map (·.id) := by
  induction l generalizing acc with
  | nil => exact Or.inl (List.mem_map.mpr ⟨x, hx, rfl⟩)
  | cons r t ih =>
    rcases ih (dictUpdateDense r acc) (by simpa using hx) with h1 | h1
    · rcases List.mem_map.mp h1 with ⟨z, hz, hz2⟩
      rcases mem_dictUpdateDense_id r z acc hz with h2 | h2
      · exact Or.inr (by simp [← hz2, h2])
      · exact Or.inl (hz2 ▸ h2)
    · exact Or.inr (by simpa using Or.inr (by simpa using h1))

theorem fuseResults_ids (bm dn : List SearchRow) (x : SearchRow)
    (hx : x ∈ fuseResults bm dn) : x.id ∈ bm.map (·.id) ∨ x.id ∈ dn.map (·.id) := by
  rcases mem_foldl_dictUpdateDense_id dn _ x hx with h1 | h1
  · rcases List.mem_map.mp h1 with ⟨z, hz, hz2⟩
    rcases mem_foldl_dictUpsert bm [] z hz with h2 | h2
    · exact absurd h2 (List.not_mem_nil z)
    · exact Or.inl (List.mem_map.mpr ⟨z, h2, hz2⟩)
  · exact Or.inr h1

theorem fuseResults_nil_right (bm : List SearchRow) (x : SearchRow)
    (hx : x ∈ fuseResults bm []) : x ∈ bm := by
  rcases mem_foldl_dictUpsert bm [] x hx with h | h
  · exact absurd h (List.not_mem_nil x)
  · exact h

theorem mem_combine_results (bm dn : List SearchRow) (alpha beta : ℚ) (r : SearchRow)
    (hr : r ∈ _combine_results bm dn alpha beta) : r ∈ scoredUnion bm dn alpha beta :=
  (sortByCombinedDesc_perm (scoredUnion bm dn alpha beta)).mem_iff.mp hr

theorem bm25_search_dense_zero (fetch : Except String (List BmRow)) (r : SearchRow)
    (hr : r ∈ _bm25_search fetch) : r.dense_score = 0 := by
  cases fetch with
  | error e => exact absurd hr (List.not_mem_nil r)
  | ok rows =>
    rcases List.mem_map.mp hr with ⟨z, _, rfl⟩
    rfl

theorem fuse_bm_only_dense_zero (fetch : Except String (List BmRow)) (r : SearchRow)
    (hr : r ∈ fuseResults (_bm25_search fetch) []) : r.dense_score = 0 :=
  bm25_search_dense_zero fetch r (fuseResults_nil_right _ r hr)

theorem dnScoreBounds_bm_only (fetch : Except String (List BmRow)) :
    dnScoreBounds (fuseResults (_bm25_search fetch) []) = (0, 1) := by
  have hf : (fuseResults (_bm25_search fetch) []).filter (fun r => decide (0 < r.dense_score)) = [] := by
    rw [List.filter_eq_nil_iff]
    intro r hr
    simp [fuse_bm_only_dense_zero fetch r hr]
  simp [dnScoreBounds, hf, minMaxOrDefault]

/-- C2 (corrected).  In `_combine_results`, candidates are unioned by chunk id
(dict insertion order: keyword candidates first, then vector-only ones); each
candidate's combined score is `alpha` times the min-max-normalized dense score
plus `beta` times the min-max-normalized BM25 score, where each min-max range
is taken over the strictly positive scores of that kind and a non-positive
range leaves the raw score unchanged; the result is sorted descending by
combined score with a stable sort, so ties keep dict insertion order — they
are not broken by chunk id ascending (see `c2_fusion_counterexample`). -/
theorem c2_fusion (bm dn : List SearchRow) (alpha beta : ℚ) :
    List.Pairwise (fun x y : SearchRow => y.combined_score ≤ x.combined_score)
        (_combine_results bm dn alpha beta) ∧
    (_combine_results bm dn alpha beta).Perm (scoredUnion bm dn alpha beta) ∧
    (∀ q : ℚ,
      (_combine_results bm dn alpha beta).filter (fun r => decide (r.combined_score = q)) =
        (scoredUnion bm dn alpha beta).filter (fun r => decide (r.combined_score = q))) ∧
    (∀ r ∈ _combine_results bm dn alpha beta,
      r.combined_score =
        alpha * minMaxNorm (dnScoreBounds (fuseResults bm dn)).1
            (dnScoreBounds (fuseResults bm dn)).2 r.dense_score +
          beta * minMaxNorm (bmScoreBounds (fuseResults bm dn)).1
            (bmScoreBounds (fuseResults bm dn)).2 r.bm25_score) ∧
    (∀ r ∈ _combine_results bm dn alpha beta,
      r.id ∈ bm.map (·.id) ∨ r.id ∈ dn.map (·.id)) := by
  refine ⟨sortByCombinedDesc_pairwise _, sortByCombinedDesc_perm _,
    fun q => sortByCombinedDesc_filter _ q, ?_, ?_⟩
  · intro r hr
    have hmem := mem_combine_results bm dn alpha beta r hr
    simp only [scoredUnion] at hmem
    rcases List.mem_map.mp hmem with ⟨r0, _, rfl⟩
    simp [scoreRow]
  · intro r hr
    have hmem := mem_combine_results bm dn alpha beta r hr
    simp only [scoredUnion] at hmem
    rcases List.mem_map.mp hmem with ⟨r0, hr0, rfl⟩
    have hid : (scoreRow alpha beta (bmScoreBounds (fuseResults bm dn)).1
        (bmScoreBounds (fuseResults bm dn)).2 (dnScoreBounds (fuseResults bm dn)).1
        (dnScoreBounds (fuseResults bm dn)).2 r0).id = r0.id := rfl
    rw [hid]
    exact fuseResults_ids bm dn r0 hr0

/-- C2 counterexample: two keyword candidates with the same BM25 score 1.0
(chunk ids 2 and 1, in that retrieval order) and no dense candidates get equal
combined scores, and the code returns them in dict insertion order [2, 1] —
the claimed tie-break by chunk id ascending would require [1, 2]. -/
theorem c2_fusion_counterexample :
    ((_combine_results [c2RowA, c2RowB] [] (7/10) (3/10)).map (·.id) = [2, 1]) ∧
    ((_combine_results [c2RowA, c2RowB] [] (7/10) (3/10)).map (·.combined_score) =
      [3/10, 3/10]) ∧
    ¬ (_combine_results [c2RowA, c2RowB] [] (7/10) (3/10)).Pairwise
        (fun x y : SearchRow =>
          y.combined_score < x.combined_score ∨
            (x.combined_score = y.combined_score ∧ x.id < y.id)) := by
  have hev : _combine_results [c2RowA, c2RowB] [] (7/10) (3/10) =
      [{ c2RowA with combined_score := 3/10 }, { c2RowB with combined_score := 3/10 }] := by
    norm_num [_combine_results, scoredUnion, fuseResults, bmScoreBounds, dnScoreBounds,
      minMaxOrDefault, minMaxNorm, scoreRow, sortByCombinedDesc, insertDesc,
      dictUpsert, dictUpdateDense, c2RowA, c2RowB, List.foldl, List.filter]
  rw [hev]
  norm_num [c2RowA, c2RowB, List.pairwise_cons]

/-- Witness for C2: the combined-score formula applied to a concrete member of
the fused output of a two-candidate keyword list. -/
theorem c2_fusion_witness :
    (⟨9, 2, "epsilon", 1/2, 0, 0⟩ : SearchRow).combined_score =
      (7/10) * minMaxNorm (dnScoreBounds (fuseResults c2BmTwo [])).1
          (dnScoreBounds (fuseResults c2BmTwo [])).2
          (⟨9, 2, "epsilon", 1/2, 0, 0⟩ : SearchRow).dense_score +
        (3/10) * minMaxNorm (bmScoreBounds (fuseResults c2BmTwo [])).1
          (bmScoreBounds (fuseResults c2BmTwo [])).2
          (⟨9, 2, "epsilon", 1/2, 0, 0⟩ : SearchRow).bm25_score :=
  (c2_fusion c2BmTwo [] (7/10) (3/10)).2.2.2.1 _ (by
    norm_num [_combine_results, scoredUnion, fuseResults, bmScoreBounds, dnScoreBounds,
      minMaxOrDefault, minMaxNorm, scoreRow, sortByCombinedDesc, insertDesc,
      dictUpsert, dictUpdateDense, c2BmTwo, List.foldl, List.filter])

/-- C5 (corrected).  `hybrid_search` never raises at all: each sub-search
catches its own failure and contributes an empty candidate list, so even when
both sub-searches fail structurally the call returns a normal (empty) result
instead of raising — the claimed "raises iff both fail" direction is refuted
by `c5_degraded_counterexample`.  With an empty chunk store it returns `ok []`,
and an unavailable embedding backend degrades to exactly the keyword-only
ranking. -/
theorem c5_degraded_search :
    (∀ (svc : SearchService Unit) (bmFetch : Except String (List BmRow))
        (dnFetch : Except String (List DenseRow)) (query : String) (limit : Nat)
        (alpha beta : ℚ),
      (svc.hybrid_search bmFetch dnFetch query limit alpha beta).isOk = true) ∧
    (∀ (svc : SearchService Unit) (query : String) (limit : Nat) (alpha beta : ℚ),
      svc.hybrid_search (.ok []) (.ok []) query limit alpha beta = .ok []) ∧
    (∀ (bmFetch : Except String (List BmRow)) (dnFetch : Except String (List DenseRow))
        (query : String) (limit : Nat) (alpha beta : ℚ),
      ({ db := (), embedding_service := some embedFailBackend } :
            SearchService Unit).hybrid_search bmFetch dnFetch query limit alpha beta =
        ({ db := (), embedding_service := none } : SearchService Unit).hybrid_search
          bmFetch dnFetch query limit alpha beta) := by
  refine ⟨fun _ _ _ _ _ _ _ => rfl, ?_, fun _ _ _ _ _ _ => rfl⟩
  intro svc query limit alpha beta
  cases hsvc : svc.embedding_service with
  | none =>
    simp [SearchService.hybrid_search, _bm25_search, _dense_search, hsvc,
      _combine_results, scoredUnion, fuseResults, sortByCombinedDesc]
  | some embed =>
    cases hq : embed query with
    | error e =>
      simp [SearchService.hybrid_search, _bm25_search, _dense_search, hsvc, hq,
        _combine_results, scoredUnion, fuseResults, sortByCombinedDesc]
    | ok v =>
      simp [SearchService.hybrid_search, _bm25_search, _dense_search, hsvc, hq,
        _combine_results, scoredUnion, fuseResults, sortByCombinedDesc]

/-- C5 counterexample: with the store unreachable for the keyword query, the
embedding backend raising, and the vector store query unreachable as well —
both sub-searches failing structurally — `hybrid_search` still returns
`ok []` instead of raising. -/
theorem c5_degraded_counterexample :
    (({ db := (), embedding_service := some embedFailBackend } :
          SearchService Unit).hybrid_search
        (.error "connection refused") (.error "connection refused") "x" 5 (7/10) (3/10) =
      .ok []) ∧
    (Except.error "connection refused" : Except String (List BmRow)).isOk = false :=
  ⟨rfl, rfl⟩

/-- C10 (confirmed).  The constructor (and `get_search_service`) always sets
`embedding_service` to `None`, so `_dense_search` returns `[]` for every
query; hence every fused result has dense score 0, the combined score reduces
to `beta` times the normalized BM25 score, and the output is the same for any
two values of `alpha`. -/
theorem c10_embedding_disabled {Db : Type} (db : Db) :
    (SearchService.init db).embedding_service = none ∧
    get_search_service db = SearchService.init db ∧
    (∀ (query : String) (fetch : Except String (List DenseRow)),
      _dense_search (SearchService.init db).embedding_service query fetch = []) ∧
    (∀ (bmFetch : Except String (List BmRow)) (dnFetch : Except String (List DenseRow))
        (query : String) (limit : Nat) (alpha alpha' beta : ℚ),
      (get_search_service db).hybrid_search bmFetch dnFetch query limit alpha beta =
        (get_search_service db).hybrid_search bmFetch dnFetch query limit alpha' beta) ∧
    (∀ (bmFetch : Except String (List BmRow)) (alpha beta : ℚ) (limit : Nat) (r : SearchRow),
      r ∈ (_combine_results (_bm25_search bmFetch) [] alpha beta).take limit →
        r.dense_score = 0 ∧
        r.combined_score =
          beta * minMaxNorm (bmScoreBounds (fuseResults (_bm25_search bmFetch) [])).1
            (bmScoreBounds (fuseResults (_bm25_search bmFetch) [])).2 r.bm25_score) := by
  have hscore : ∀ (bmFetch : Except String (List BmRow)) (alpha beta : ℚ)
      (r0 : SearchRow), r0 ∈ fuseResults (_bm25_search bmFetch) [] →
      scoreRow alpha beta (bmScoreBounds (fuseResults (_bm25_search bmFetch) [])).1
          (bmScoreBounds (fuseResults (_bm25_search bmFetch) [])).2
          (dnScoreBounds (fuseResults (_bm25_search bmFetch) [])).1
          (dnScoreBounds (fuseResults (_bm25_search bmFetch) [])).2 r0 =
        { r0 with
          combined_score :=
            beta * minMaxNorm (bmScoreBounds (fuseResults (_bm25_search bmFetch) [])).1
              (bmScoreBounds (fuseResults (_bm25_search bmFetch) [])).2 r0.bm25_score } := by
    intro bmFetch alpha beta r0 hr0
    have hd0 : r0.dense_score = 0 := fuse_bm_only_dense_zero bmFetch r0 hr0
    have hdb := dnScoreBounds_bm_only bmFetch
    simp [scoreRow, hd0, hdb, minMaxNorm]
  refine ⟨rfl, rfl, fun _ _ => rfl, ?_, ?_⟩
  · intro bmFetch dnFetch query limit alpha alpha' beta
    have hmap : scoredUnion (_bm25_search bmFetch) [] alpha beta =
        scoredUnion (_bm25_search bmFetch) [] alpha' beta := by
      simp only [scoredUnion]
      refine List.map_congr_left ?_
      intro r0 hr0
      rw [hscore bmFetch alpha beta r0 hr0, hscore bmFetch alpha' beta r0 hr0]
    show Except.ok ((_combine_results (_bm25_search bmFetch)
        (_dense_search none query dnFetch) alpha beta).take limit) =
      Except.ok ((_combine_results (_bm25_search bmFetch)
        (_dense_search none query dnFetch) alpha' beta).take limit)
    simp only [_dense_search, _combine_results, hmap]
  · intro bmFetch alpha beta limit r hr
    have hr2 := mem_combine_results _ _ alpha beta r (List.mem_of_mem_take hr)
    simp only [scoredUnion] at hr2
    rcases List.mem_map.mp hr2 with ⟨r0, hr0, rfl⟩
    rw [hscore bmFetch alpha beta r0 hr0]
    have hd0 : r0.dense_score = 0 := fuse_bm_only_dense_zero bmFetch r0 hr0
    exact ⟨hd0, rfl⟩

/-- Witness for C10: the single keyword candidate of a one-row store has dense
score 0 and combined score `beta` times its normalized BM25 score. -/
theorem c10_embedding_disabled_witness :
    (⟨3, 1, "alpha beta", 1, 0, 3/10⟩ : SearchRow).dense_score = 0 ∧
    (⟨3, 1, "alpha beta", 1, 0, 3/10⟩ : SearchRow).combined_score =
      (3/10) * minMaxNorm (bmScoreBounds (fuseResults (_bm25_search (.ok [c10Row])) [])).1
        (bmScoreBounds (fuseResults (_bm25_search (.ok [c10Row])) [])).2
        (⟨3, 1, "alpha beta", 1, 0, 3/10⟩ : SearchRow).bm25_score :=
  (c10_embedding_disabled ()).2.2.2.2 (.ok [c10Row]) (7/10) (3/10) 5 _ (by
    norm_num [_combine_results, _bm25_search, scoredUnion, fuseResults, bmScoreBounds,
      dnScoreBounds, minMaxOrDefault, minMaxNorm, scoreRow, sortByCombinedDesc, insertDesc,
      dictUpsert, dictUpdateDense, c10Row, List.foldl, List.filter, List.take])

/-! ### Lemmas about embedding normalization -/

theorem sumSquares_nonneg (v : List ℝ) : 0 ≤ sumSquares v := by
  refine List.sum_nonneg ?_
  intro x hx
  rcases List.mem_map.mp hx with ⟨y, _, rfl⟩
  exact mul_self_nonneg y

theorem sumSquares_pos (v : List ℝ) (h : ∃ x ∈ v, x ≠ 0) : 0 < sumSquares v := by
  rcases h with ⟨x, hx, hne⟩
  have hle : x * x ≤ sumSquares v := by
    refine List.single_le_sum ?_ _ (List.mem_map.mpr ⟨x, hx, rfl⟩)
    intro y hy
    rcases List.mem_map.mp hy with ⟨z, _, rfl⟩
    exact mul_self_nonneg z
  exact lt_of_lt_of_le (mul_self_pos.mpr hne) hle

theorem sumSquares_map_div (v : List ℝ) (c : ℝ) :
    sumSquares (v.map fun x => x / c) = sumSquares v * (c * c)⁻¹ := by
  unfold sumSquares
  rw [List.map_map]
  have hfun : ((fun x : ℝ => x * x) ∘ fun x : ℝ => x / c) =
      fun x : ℝ => (x * x) * (c * c)⁻¹ := by
    funext x
    simp only [Function.comp, div_eq_mul_inv, mul_inv]
    ring
  rw [hfun, ← List.sum_map_mul_right]

theorem l2_norm_normalize (v : List ℝ) (h : ∃ x ∈ v, x ≠ 0) :
    l2_norm (normalize_embedding v) = 1 := by
  have hpos : 0 < sumSquares v := sumSquares_pos v h
  have hn : l2_norm v ≠ 0 := by
    unfold l2_norm
    positivity
  unfold normalize_embedding
  rw [if_neg hn]
  unfold l2_norm
  rw [sumSquares_map_div]
  have hsq : l2_norm v * l2_norm v = sumSquares v := Real.mul_self_sqrt (sumSquares_nonneg v)
  unfold l2_norm at hsq
  rw [hsq, mul_inv_cancel₀ (ne_of_gt hpos), Real.sqrt_one]

/-- C9 (confirmed): `normalize_embedding` is idempotent on non-zero vectors,
and returns the all-zero vector unchanged. -/
theorem c9_normalize_idempotent :
    (∀ v : List ℝ, (∃ x ∈ v, x ≠ 0) →
      normalize_embedding (normalize_embedding v) = normalize_embedding v) ∧
    (∀ n : Nat, normalize_embedding (List.replicate n (0:ℝ)) = List.replicate n (0:ℝ)) := by
  constructor
  · intro v h
    have h1 : l2_norm (normalize_embedding v) = 1 := l2_norm_normalize v h
    set w := normalize_embedding v with hw
    unfold normalize_embedding
    rw [h1]
    simp
  · intro n
    have h0 : sumSquares (List.replicate n (0:ℝ)) = 0 := by
      unfold sumSquares
      simp
    unfold normalize_embedding l2_norm
    rw [h0, Real.sqrt_zero, if_pos rfl]

/-- Witness for C9: idempotence at the concrete vector `[3, 4]` and the zero
vector of dimension 2. -/
theorem c9_normalize_idempotent_witness :
    normalize_embedding (normalize_embedding [(3:ℝ), 4]) = normalize_embedding [(3:ℝ), 4] ∧
    normalize_embedding (List.replicate 2 (0:ℝ)) = List.replicate 2 (0:ℝ) :=
  ⟨c9_normalize_idempotent.1 [3, 4] ⟨3, by simp, by norm_num⟩,
   c9_normalize_idempotent.2 2⟩

/-! ### Lemmas about the spreadsheet rendering -/

theorem rowKVs_ne_nil (headers cells : List String)
    (h : ∃ p ∈ headers.zip cells, ¬ p.2 = "") : rowKVs headers cells ≠ [] := by
  rcases h with ⟨p, hp, hpne⟩
  intro hnil
  unfold rowKVs at hnil
  rw [List.filterMap_eq_nil_iff] at hnil
  have := hnil p hp
  rw [if_neg hpne] at this
  exact Option.noConfusion this

theorem rowLine_eq_some (headers : List String) (r : Nat × List String)
    (h : rowKVs headers r.2 ≠ []) :
    rowLine headers r =
      some ("행 " ++ toString r.1 ++ ": " ++ String.intercalate " | " (rowKVs headers r.2)) := by
  unfold rowLine
  rw [if_neg (by simpa using h)]

theorem filterMap_rowLine_eq_map (headers : List String) (rows : List (Nat × List String))
    (h : ∀ r ∈ rows, ∃ p ∈ headers.zip r.2, ¬ p.2 = "") :
    rows.filterMap (rowLine headers) =
      rows.map fun r =>
        "행 " ++ toString r.1 ++ ": " ++ String.intercalate " | " (rowKVs headers r.2) := by
  induction rows with
  | nil => rfl
  | cons r t ih =>
    have hne := rowKVs_ne_nil headers r.2 (h r (List.mem_cons_self r t))
    rw [List.filterMap_cons, rowLine_eq_some headers r hne, List.map_cons,
      ih fun x hx => h x (List.mem_cons_of_mem r hx)]

/-- C8 (confirmed).  `_create_chunk_content` renders the sheet banner, an
explicit `"컬럼: …"` header line of column names, a blank line, and one
`"행 N: k=v | …"` line per data row (for rows that render at least one pair;
absent/empty cells are omitted from the pair list); `_process_dataframe`
numbers data rows `idx + 2`, i.e. by their original 1-based spreadsheet row
with the header as row 1.  The `["name","age"]` / `["Kim","30"]` scenario
produces exactly the content whose lines include `"컬럼: name, age"` and
`"행 2: name=Kim | age=30"`. -/
theorem c8_spreadsheet_render :
    (∀ (headers : List String) (rows : List (Nat × List String)) (sheet_name : String),
      (∀ r ∈ rows, ∃ p ∈ headers.zip r.2, ¬ p.2 = "") →
      _create_chunk_content headers rows sheet_name =
        String.intercalate "\n"
          (["=== " ++ sheet_name ++ " 데이터 ===",
            "컬럼: " ++ String.intercalate ", " headers,
            ""]
            ++ rows.map fun r =>
              "행 " ++ toString r.1 ++ ": " ++ String.intercalate " | " (rowKVs headers r.2))) ∧
    (_process_dataframe excelCfgDefault ["name", "age"] [[some "Kim", some "30"]] "f.csv" "CSV" =
      [{ content := "=== CSV 데이터 ===\n컬럼: name, age\n\n행 2: name=Kim | age=30",
         chunk_type := "excel_sheet",
         chunk_metadata := { sheet_name := "CSV", filename := "f.csv", chunk_index := 0,
                             row_range := "2-2", total_columns := 2, rows_in_chunk := 1 } }]) ∧
    ("=== CSV 데이터 ===\n컬럼: name, age\n\n행 2: name=Kim | age=30" =
      String.intercalate "\n"
        ["=== CSV 데이터 ===", "컬럼: name, age", "", "행 2: name=Kim | age=30"]) ∧
    ("컬럼: name, age" ∈
      ["=== CSV 데이터 ===", "컬럼: name, age", "", "행 2: name=Kim | age=30"]) ∧
    ("행 2: name=Kim | age=30" ∈
      ["=== CSV 데이터 ===", "컬럼: name, age", "", "행 2: name=Kim | age=30"]) := by
  refine ⟨?_, rfl, rfl, by decide, by decide⟩
  intro headers rows sheet_name h
  unfold _create_chunk_content
  rw [filterMap_rowLine_eq_map headers rows h]

/-- Witness for C8: the general rendering equation applied to the scenario's
header list and single data row. -/
theorem c8_spreadsheet_render_witness :
    _create_chunk_content ["name", "age"] [(2, ["Kim", "30"])] "CSV" =
      String.intercalate "\n"
        (["=== CSV 데이터 ===",
          "컬럼: " ++ String.intercalate ", " ["name", "age"],
          ""]
          ++ [((2 : Nat), ["Kim", "30"])].map fun r =>
            "행 " ++ toString r.1 ++ ": " ++
              String.intercalate " | " (rowKVs ["name", "age"] r.2)) :=
  c8_spreadsheet_render.1 ["name", "age"] [(2, ["Kim", "30"])] "CSV" (by decide)

/-! ### Lemmas about the chunker -/

theorem overlapWalk_budget (cfg : TextChunkerCfg) (tok : String → Nat) :
    ∀ (l ov : List String) (ot : Nat), ot ≤ cfg.chunk_overlap →
      (overlapWalk cfg tok l ov ot).2 ≤ cfg.chunk_overlap := by
  intro l
  induction l with
  | nil => intro ov ot h; simpa [overlapWalk] using h
  | cons s rest ih =>
    intro ov ot h
    simp only [overlapWalk]
    by_cases hc : ot + tok s ≤ cfg.chunk_overlap
    · rw [if_pos hc]; exact ih _ _ hc
    · rw [if_neg hc]; exact h

theorem overlapWalk_nil_zero (cfg : TextChunkerCfg) (tok : String → Nat) :
    ∀ (l ov : List String) (ot : Nat), (ov = [] → ot = 0) →
      (overlapWalk cfg tok l ov ot).1 = [] → (overlapWalk cfg tok l ov ot).2 = 0 := by
  intro l
  induction l with
  | nil => intro ov ot h h1; exact h (by simpa [overlapWalk] using h1)
  | cons s rest ih =>
    intro ov ot h h1
    simp only [overlapWalk] at h1 ⊢
    by_cases hc : ot + tok s ≤ cfg.chunk_overlap
    · rw [if_pos hc] at h1 ⊢
      exact ih _ _ (fun hx => absurd hx (by simp)) h1
    · rw [if_neg hc] at h1 ⊢
      exact h h1

theorem prepare_next_chunk_budget (cfg : TextChunkerCfg) (tok : String → Nat)
    (cur : List String) :
    (_prepare_next_chunk cfg tok cur).2 ≤ cfg.chunk_overlap ∧
    ((_prepare_next_chunk cfg tok cur).1 = [] → (_prepare_next_chunk cfg tok cur).2 = 0) := by
  unfold _prepare_next_chunk
  by_cases hc : cur = [] ∨ cfg.chunk_overlap = 0
  · rw [if_pos hc]; exact ⟨Nat.zero_le _, fun _ => rfl⟩
  · rw [if_neg hc]
    exact ⟨overlapWalk_budget cfg tok _ _ _ (Nat.zero_le _),
      overlapWalk_nil_zero cfg tok _ _ _ (fun _ => rfl)⟩

theorem createChunksLoop_token_le (cfg : TextChunkerCfg) (tok : String → Nat) (document_id : Nat)
    (hcs : cfg.chunk_size ≤ cfg.max_chunk_size)
    (hov : cfg.chunk_overlap ≤ cfg.max_chunk_size) :
    ∀ (sentences cur : List String) (curTok idx : Nat) (acc : List Chunk),
      (∀ s ∈ sentences, tok s + cfg.chunk_overlap ≤ cfg.max_chunk_size) →
      curTok ≤ cfg.max_chunk_size →
      (cur = [] → curTok = 0) →
      (∀ c ∈ acc, c.token_count ≤ cfg.max_chunk_size) →
      ∀ c ∈ createChunksLoop cfg tok document_id sentences cur curTok idx acc,
        c.token_count ≤ cfg.max_chunk_size := by
  intro sentences
  induction sentences with
  | nil =>
    intro cur curTok idx acc _ hcur _ hacc c hc
    simp only [createChunksLoop] at hc
    by_cases hce : cur = []
    · rw [if_pos hce] at hc; exact hacc c hc
    · rw [if_neg hce] at hc
      rcases List.mem_append.mp hc with h | h
      · exact hacc c h
      · have hceq : c = _create_chunk_data cur curTok idx document_id := by simpa using h
        rw [hceq]; exact hcur
  | cons s rest ih =>
    intro cur curTok idx acc hs hcur hnil hacc c hc
    have hstok : tok s + cfg.chunk_overlap ≤ cfg.max_chunk_size := hs s (List.mem_cons_self s rest)
    have hrest : ∀ x ∈ rest, tok x + cfg.chunk_overlap ≤ cfg.max_chunk_size :=
      fun x hx => hs x (List.mem_cons_of_mem s hx)
    simp only [createChunksLoop] at hc
    by_cases h1 : curTok + tok s ≤ cfg.chunk_size ∨ cur = []
    · rw [if_pos h1] at hc
      have hcount : curTok + tok s ≤ cfg.max_chunk_size := by
        rcases h1 with h1 | h1
        · exact le_trans h1 hcs
        · have h0 : curTok = 0 := hnil h1
          omega
      by_cases h2 : cfg.max_chunk_size ≤ curTok + tok s
      · rw [if_pos h2] at hc
        refine ih _ _ _ _ hrest ?_ ?_ ?_ c hc
        · exact le_trans (prepare_next_chunk_budget cfg tok _).1 hov
        · exact (prepare_next_chunk_budget cfg tok _).2
        · intro c' hc'
          rcases List.mem_append.mp hc' with h | h
          · exact hacc c' h
          · have hceq : c' = _create_chunk_data (cur ++ [s]) (curTok + tok s) idx document_id :=
              by simpa using h
            rw [hceq]; exact hcount
      · rw [if_neg h2] at hc
        exact ih _ _ _ _ hrest hcount (fun hx => absurd hx (by simp)) hacc c hc
    · rw [if_neg h1] at hc
      refine ih _ _ _ _ hrest ?_ (fun hx => absurd hx (by simp)) ?_ c hc
      · have h3 := (prepare_next_chunk_budget cfg tok cur).1
        omega
      · intro c' hc'
        rcases List.mem_append.mp hc' with h | h
        · exact hacc c' h
        · have hceq : c' = _create_chunk_data cur curTok idx document_id := by simpa using h
          rw [hceq]; exact hcur

theorem optimizeLoop_token_le (cfg : TextChunkerCfg) :
    ∀ (l acc : List Chunk),
      (∀ c ∈ acc, c.token_count ≤ cfg.max_chunk_size) →
      (∀ c ∈ l, c.token_count ≤ cfg.max_chunk_size) →
      ∀ c ∈ optimizeLoop cfg acc l, c.token_count ≤ cfg.max_chunk_size := by
  intro l
  induction l with
  | nil => intro acc hacc _ c hc; exact hacc c (by simpa [optimizeLoop] using hc)
  | cons x rest ih =>
    intro acc hacc hl c hc
    have hx : x.token_count ≤ cfg.max_chunk_size := hl x (List.mem_cons_self x rest)
    have hrest : ∀ y ∈ rest, y.token_count ≤ cfg.max_chunk_size :=
      fun y hy => hl y (List.mem_cons_of_mem x hy)
    simp only [optimizeLoop] at hc
    by_cases h1 : x.token_count < cfg.chunk_size / 2 ∧ acc ≠ []
    · rw [if_pos h1] at hc
      by_cases h2 : (acc.getLastD x).token_count + x.token_count ≤ cfg.max_chunk_size
      · rw [if_pos h2] at hc
        refine ih _ ?_ hrest c hc
        intro c' hc'
        rcases List.mem_append.mp hc' with h | h
        · exact hacc c' ((List.dropLast_sublist acc).subset h)
        · have hceq : c' = mergeChunks (acc.getLastD x) x := by simpa using h
          rw [hceq]; exact h2
      · rw [if_neg h2] at hc
        refine ih _ ?_ hrest c hc
        intro c' hc'
        rcases List.mem_append.mp hc' with h | h
        · exact hacc c' h
        · have hceq : c' = x := by simpa using h
          rw [hceq]; exact hx
    · rw [if_neg h1] at hc
      refine ih _ ?_ hrest c hc
      intro c' hc'
      rcases List.mem_append.mp hc' with h | h
      · exact hacc c' h
      · have hceq : c' = x := by simpa using h
        rw [hceq]; exact hx

/-- C3 (corrected).  The hard ceiling holds only under a side condition on
sentence sizes: when `chunk_size` and `chunk_overlap` do not exceed
`max_chunk_size` and every sentence's token count plus the overlap budget fits
in `max_chunk_size`, every chunk (before and after the merge pass) has
`token_count ≤ max_chunk_size`.  Without that condition the ceiling is not
enforced: a single over-long sentence is force-added to an empty chunk and
only closed afterwards (`c3_token_ceiling_counterexample`). -/
theorem c3_token_ceiling (cfg : TextChunkerCfg) (tok : String → Nat)
    (sentences : List String) (document_id : Nat)
    (hcs : cfg.chunk_size ≤ cfg.max_chunk_size)
    (hov : cfg.chunk_overlap ≤ cfg.max_chunk_size)
    (hsent : ∀ s ∈ sentences, tok s + cfg.chunk_overlap ≤ cfg.max_chunk_size) :
    ∀ c ∈ chunk_from_sentences cfg tok sentences document_id,
      c.token_count ≤ cfg.max_chunk_size := by
  intro c hc
  refine optimizeLoop_token_le cfg _ [] (by simp) ?_ c hc
  intro c' hc'
  exact createChunksLoop_token_le cfg tok document_id hcs hov sentences [] 0 0 [] hsent
    (Nat.zero_le _) (fun _ => rfl) (by simp) c' hc'

/-- C3 counterexample: with the default configuration, a single sentence that
tokenizes to 2000 tokens yields one chunk whose `token_count` is 2000, above
the hard ceiling of 1024. -/
theorem c3_token_ceiling_counterexample :
    ((chunk_from_sentences textChunkerDefault (fun _ => 2000) ["AAAAAAAAAAAA"] 7).map
        (·.token_count) = [2000]) ∧
    textChunkerDefault.max_chunk_size < 2000 :=
  ⟨rfl, by decide⟩

set_option maxRecDepth 4000 in
/-- Witness for C3: the bound applied to the head chunk of a concrete
one-sentence input whose token count respects the side condition. -/
theorem c3_token_ceiling_witness :
    ((chunk_from_sentences textChunkerDefault (fun _ => 21)
        ["Hello chunking world."] 7).headD
      ⟨0, 0, "", 0, 0, 0, ⟨0, 0, "", ""⟩⟩).token_count ≤
      textChunkerDefault.max_chunk_size :=
  c3_token_ceiling textChunkerDefault (fun _ => 21) ["Hello chunking world."] 7
    (by decide) (by decide) (by decide) _ (by decide)

theorem chunk_index_append_range (acc : List Chunk) (idx : Nat) (c : Chunk)
    (h : acc.map (·.chunk_index) = List.range idx) (hc : c.chunk_index = idx) :
    (acc ++ [c]).map (·.chunk_index) = List.range (idx + 1) := by
  rw [List.map_append, h, List.range_succ]
  simp [hc]

theorem createChunksLoop_indices (cfg : TextChunkerCfg) (tok : String → Nat)
    (document_id : Nat) :
    ∀ (sentences cur : List String) (curTok idx : Nat) (acc : List Chunk),
      acc.map (·.chunk_index) = List.range idx →
      ∃ n, (createChunksLoop cfg tok document_id sentences cur curTok idx acc).map
        (·.chunk_index) = List.range n := by
  intro sentences
  induction sentences with
  | nil =>
    intro cur curTok idx acc hacc
    simp only [createChunksLoop]
    by_cases hce : cur = []
    · rw [if_pos hce]; exact ⟨idx, hacc⟩
    · rw [if_neg hce]
      exact ⟨idx + 1, chunk_index_append_range acc idx _ hacc rfl⟩
  | cons s rest ih =>
    intro cur curTok idx acc hacc
    simp only [createChunksLoop]
    by_cases h1 : curTok + tok s ≤ cfg.chunk_size ∨ cur = []
    · rw [if_pos h1]
      by_cases h2 : cfg.max_chunk_size ≤ curTok + tok s
      · rw [if_pos h2]
        exact ih _ _ _ _ (chunk_index_append_range acc idx _ hacc rfl)
      · rw [if_neg h2]
        exact ih _ _ _ _ hacc
    · rw [if_neg h1]
      exact ih _ _ _ _ (chunk_index_append_range acc idx _ hacc rfl)

theorem getLastD_of_ne_nil {α : Type} (l : List α) (d : α) (h : l ≠ []) :
    l.getLastD d = l.getLast h := by
  rw [List.getLastD_eq_getLast?, List.getLast?_eq_getLast l h]
  rfl

theorem optimizeLoop_indices_sublist (cfg : TextChunkerCfg) :
    ∀ (l acc : List Chunk),
      List.Sublist ((optimizeLoop cfg acc l).map (·.chunk_index))
        (acc.map (·.chunk_index) ++ l.map (·.chunk_index)) := by
  intro l
  induction l with
  | nil => intro acc; simp [optimizeLoop]
  | cons x rest ih =>
    intro acc
    simp only [optimizeLoop, List.map_cons]
    by_cases h1 : x.token_count < cfg.chunk_size / 2 ∧ acc ≠ []
    · rw [if_pos h1]
      by_cases h2 : (acc.getLastD x).token_count + x.token_count ≤ cfg.max_chunk_size
      · rw [if_pos h2]
        have hmap : (acc.dropLast ++ [mergeChunks (acc.getLastD x) x]).map (·.chunk_index) =
            acc.map (·.chunk_index) := by
          rw [getLastD_of_ne_nil acc x h1.2]
          conv_rhs => rw [← List.dropLast_append_getLast h1.2]
          rw [List.map_append, List.map_append]
          simp [mergeChunks]
        refine List.Sublist.trans ?_
          (List.Sublist.append_left (List.sublist_cons_self _ _) _)
        rw [← hmap]
        exact ih _
      · rw [if_neg h2]
        have hsub := ih (acc ++ [x])
        simpa [List.map_append, List.append_assoc] using hsub
    · rw [if_neg h1]
      have hsub := ih (acc ++ [x])
      simpa [List.map_append, List.append_assoc] using hsub

/-- C4 (corrected).  `_create_chunks_from_sentences` does emit `chunk_index`
values that are exactly `0..M-1`; but the merge pass of `_optimize_chunks`
removes merged chunks without re-indexing, so the final indices are only a
subsequence of `0..M-1` (strictly increasing, possibly with gaps) — the
contiguity part of the claim fails (`c4_chunk_indices_counterexample`). -/
theorem c4_chunk_indices (cfg : TextChunkerCfg) (tok : String → Nat)
    (sentences : List String) (document_id : Nat) :
    ((_create_chunks_from_sentences cfg tok sentences document_id).map (·.chunk_index) =
      List.range (_create_chunks_from_sentences cfg tok sentences document_id).length) ∧
    (List.Sublist ((chunk_from_sentences cfg tok sentences document_id).map (·.chunk_index))
      ((_create_chunks_from_sentences cfg tok sentences document_id).map (·.chunk_index))) ∧
    ((chunk_from_sentences cfg tok sentences document_id).map (·.chunk_index)).Pairwise
      (· < ·) := by
  obtain ⟨n, hn⟩ :=
    createChunksLoop_indices cfg tok document_id sentences [] 0 0 [] (by simp)
  have hn' : (_create_chunks_from_sentences cfg tok sentences document_id).map
      (·.chunk_index) = List.range n := hn
  have hlen : (_create_chunks_from_sentences cfg tok sentences document_id).length = n := by
    have := congrArg List.length hn'
    simpa using this
  have hpart1 : (_create_chunks_from_sentences cfg tok sentences document_id).map
      (·.chunk_index) = List.range
        (_create_chunks_from_sentences cfg tok sentences document_id).length := by
    rw [hn', hlen]
  have hpart2 : List.Sublist
      ((chunk_from_sentences cfg tok sentences document_id).map (·.chunk_index))
      ((_create_chunks_from_sentences cfg tok sentences document_id).map (·.chunk_index)) := by
    have := optimizeLoop_indices_sublist cfg
      (_create_chunks_from_sentences cfg tok sentences document_id) []
    simpa [chunk_from_sentences, _optimize_chunks] using this
  refine ⟨hpart1, hpart2, ?_⟩
  refine List.Pairwise.sublist hpart2 ?_
  rw [hpart1]
  exact List.pairwise_lt_range _

/-- C4 counterexample: three sentences tokenizing to 450, 100, 450 produce
pre-merge chunks indexed 0, 1, 2; the 100-token middle chunk is merged into
chunk 0, and the surviving indices are `[0, 2]` — not `0..N-1` for the `N = 2`
returned chunks. -/
theorem c4_chunk_indices_counterexample :
    ((chunk_from_sentences textChunkerDefault
        (fun s => if s = "Bbbbbbbbbbbb" then 100 else 450)
        ["Aaaaaaaaaaaa", "Bbbbbbbbbbbb", "Cccccccccccc"] 7).map (·.chunk_index) = [0, 2]) ∧
    ((chunk_from_sentences textChunkerDefault
        (fun s => if s = "Bbbbbbbbbbbb" then 100 else 450)
        ["Aaaaaaaaaaaa", "Bbbbbbbbbbbb", "Cccccccccccc"] 7).length = 2) ∧
    [0, 2] ≠ List.range 2 :=
  ⟨rfl, rfl, by decide⟩

/-! ### Lemmas about the ingestion pipeline -/

theorem pipelineCore_ok_temp_file (uid : String) (env : PipelineEnv) (st : PipelineState)
    (r : PipelineResult) (st' : PipelineState)
    (h : pipelineCore uid env st = (.ok r, st')) : st'.temp_file_exists = false := by
  simp only [pipelineCore] at h
  split at h
  · exact absurd (congrArg Prod.fst h) (by simp)
  · split at h
    · exact absurd (congrArg Prod.fst h) (by simp)
    · split at h
      · exact absurd (congrArg Prod.fst h) (by simp)
      · split at h
        · exact absurd (congrArg Prod.fst h) (by simp)
        · split at h
          · exact absurd (congrArg Prod.fst h) (by simp)
          · exact (congrArg (fun p => p.2.temp_file_exists) h).symm

/-- C7 (corrected).  The temporary download file is removed on the success
exit path (`os.remove` guarded by `os.path.exists` right before the return),
and a run that fails at or before the download never creates it; but there is
no `finally` block, so a run that fails after the download leaves the
temporary file behind (`c7_temp_file_counterexample`). -/
theorem c7_temp_file_removed_on_success (uid : String) (env : PipelineEnv)
    (st : PipelineState) (r : PipelineResult) (st' : PipelineState)
    (h : process_document_pipeline uid env st = (.ok r, st')) :
    st'.temp_file_exists = false := by
  unfold process_document_pipeline at h
  split at h
  · rename_i r0 st0 heq
    have h2 : st0 = st' := congrArg Prod.snd h
    exact h2 ▸ pipelineCore_ok_temp_file uid env st r0 st0 heq
  · exact absurd (congrArg Prod.fst h) (by simp)

/-- C7 counterexample: a run whose extraction step raises (after the download
created the temporary file) ends with the temporary file still present. -/
theorem c7_temp_file_counterexample :
    ((process_document_pipeline "u1" envExtractFail stPending).1 =
      Except.error "PDF 파싱 실패") ∧
    (process_document_pipeline "u1" envExtractFail stPending).2.temp_file_exists = true :=
  ⟨rfl, rfl⟩

/-- Witness for C7: a fully successful run over a linked session ends with the
temporary file removed. -/
theorem c7_temp_file_witness :
    (process_document_pipeline "u2" envAllOk stLinked).2.temp_file_exists = false :=
  c7_temp_file_removed_on_success "u2" envAllOk stLinked
    { document_id := 5, chunks_created := 3, total_tokens := 100 }
    (process_document_pipeline "u2" envAllOk stLinked).2 rfl

theorem get_or_create_linked (st : PipelineState) (s : SessionRec) (d : Nat) (doc : DocRec)
    (hd : s.document_id = some d) (hdnz : ¬ d = 0)
    (hfind : st.documents.find? (fun dc => dc.id == d) = some doc) :
    _get_or_create_document_record st s = (d, st) := by
  unfold _get_or_create_document_record
  simp only [hd]
  rw [if_neg hdnz, hfind]

theorem process_pipeline_snd (uid : String) (env : PipelineEnv) (st : PipelineState) :
    (process_document_pipeline uid env st).2 = (pipelineCore uid env st).2 := by
  unfold process_document_pipeline
  split
  · rename_i r0 st0 heq
    rw [heq]
  · rename_i m st0 heq
    rw [heq]
    rfl

theorem pipelineCore_linked (uid : String) (env : PipelineEnv) (st : PipelineState)
    (s : SessionRec) (d : Nat) (doc : DocRec)
    (hs : st.session = some s) (hd : s.document_id = some d) (hdnz : ¬ d = 0)
    (hfind : st.documents.find? (fun dc => dc.id == d) = some doc) :
    ((pipelineCore uid env st).2.documents.length = st.documents.length) ∧
    (∀ r st', pipelineCore uid env st = (.ok r, st') → r.document_id = d) := by
  have hX := get_or_create_linked
    (updateUploadStatus
      (updateUploadStatus
        { updateUploadStatus st "processing" "문서 처리 시작" with temp_file_exists := true }
        "processing" "파일 다운로드 완료")
      "processing" "텍스트 추출 완료")
    s d doc hd hdnz hfind
  constructor
  · simp only [pipelineCore, hs]
    split
    · rfl
    · split
      · rfl
      · rw [hX]
        split
        · rfl
        · split
          · rfl
          · simp [_complete_upload_session, updateUploadStatus]
  · intro r st' hok
    simp only [pipelineCore, hs] at hok
    split at hok
    · exact absurd (congrArg Prod.fst hok) (by simp)
    · split at hok
      · exact absurd (congrArg Prod.fst hok) (by simp)
      · rw [hX] at hok
        split at hok
        · exact absurd (congrArg Prod.fst hok) (by simp)
        · split at hok
          · exact absurd (congrArg Prod.fst hok) (by simp)
          · have h1 := congrArg Prod.fst hok
            injection h1 with h1
            exact h1 ▸ rfl

/-- C1 (corrected).  When the session is already linked to an existing
Document (as the upload-commit flow guarantees: `document_id` set and the row
present), every pipeline run — first run or retry, successful or failing —
reuses that Document and creates no second one, and a successful run reports
the linked id.  But a run that created the Document itself and then failed
never records the link (`document_id` is set only by the upload commit or by
`_complete_upload_session` on success, and the failure handler sets nothing),
so re-running the pipeline then creates a second Document
(`c1_retry_duplicate_counterexample`). -/
theorem c1_linked_document_reuse (uid : String) (env : PipelineEnv) (st : PipelineState)
    (s : SessionRec) (d : Nat) (doc : DocRec)
    (hs : st.session = some s) (hd : s.document_id = some d) (hdnz : ¬ d = 0)
    (hfind : st.documents.find? (fun dc => dc.id == d) = some doc) :
    ((process_document_pipeline uid env st).2.documents.length = st.documents.length) ∧
    (∀ r st', process_document_pipeline uid env st = (.ok r, st') → r.document_id = d) := by
  have hcore := pipelineCore_linked uid env st s d doc hs hd hdnz hfind
  constructor
  · rw [process_pipeline_snd]
    exact hcore.1
  · intro r st' hok
    unfold process_document_pipeline at hok
    split at hok
    · rename_i r0 st0 heq
      have h1 := congrArg Prod.fst hok
      injection h1 with h1
      exact h1 ▸ hcore.2 r0 st0 heq
    · exact absurd (congrArg Prod.fst hok) (by simp)

/-- C1 counterexample: a session with no linked Document (pipeline started
from `init`/`pending` without the commit step having linked one).  The first
run creates Document 1, fails at embedding with a retryable
(`processing_failed`) classification, and leaves `document_id` unset; the
re-run then creates Document 2 — two Document records in total, not one. -/
theorem c1_retry_duplicate_counterexample :
    (_determine_failure_type "embedding model error" = "processing_failed") ∧
    ((process_document_pipeline "u1" envEmbedFail stPending).1 =
      Except.error "embedding model error") ∧
    ((process_document_pipeline "u1" envEmbedFail stPending).2.documents.length = 1) ∧
    ((process_document_pipeline "u1" envEmbedFail stPending).2.session =
      some { id := "u1", filename := "a.pdf", status := "processing", document_id := none,
             error_message := some "텍스트 청킹 완료 (3개 청크)" }) ∧
    ((process_document_pipeline "u1" envAllOk
        (process_document_pipeline "u1" envEmbedFail stPending).2).2.documents.length = 2) :=
  ⟨rfl, rfl, rfl, rfl, rfl⟩

/-- Witness for C1: a run over a session linked to existing Document 5 leaves
the document table at exactly one row. -/
theorem c1_linked_document_reuse_witness :
    (process_document_pipeline "u2" envAllOk stLinked).2.documents.length =
      stLinked.documents.length :=
  (c1_linked_document_reuse "u2" envAllOk stLinked
    { id := "u2", filename := "b.pdf", status := "pending", document_id := some 5,
      error_message := none }
    5 { id := 5, status := "processing" } rfl rfl (by decide) rfl).1

/-- C6 (code bug).  The classifier itself matches the claim
(`_determine_failure_type` returns `upload_failed` exactly on the upload-layer
signatures, `processing_failed` otherwise — two sample evaluations below), but
the session/document failure marking never happens: `_handle_processing_failure`
calls `UploadSessionService.fail_upload` with three arguments while its
definition takes two, and `DocumentService.fail_document` does not exist; the
resulting `TypeError` is swallowed by the handler's own `except`, so after a
retryable embedding failure the session stays in `processing` (never `failed`)
and no document is ever marked `failed`. -/
theorem c6_failure_never_recorded (st : PipelineState) (s : SessionRec)
    (hs : st.session = some s) (hsd : s.document_id = none)
    (hdocs : ∀ doc ∈ st.documents, doc.status ≠ "failed") :
    ((process_document_pipeline "u1" envEmbedFail st).1 =
      Except.error "embedding model error") ∧
    (_determine_failure_type "embedding model error" = "processing_failed") ∧
    (_determine_failure_type "file not found: uploads/u1/a.pdf" = "upload_failed") ∧
    ((process_document_pipeline "u1" envEmbedFail st).2.session.map (·.status) =
      some "processing") ∧
    (∀ doc ∈ (process_document_pipeline "u1" envEmbedFail st).2.documents,
      doc.status ≠ "failed") := by
  refine ⟨?_, rfl, rfl, ?_, ?_⟩
  · simp [process_document_pipeline, pipelineCore, hs, hsd, envEmbedFail,
      updateUploadStatus, _get_or_create_document_record, _create_document_record,
      _handle_processing_failure]
  · simp [process_document_pipeline, pipelineCore, hs, hsd, envEmbedFail,
      updateUploadStatus, _get_or_create_document_record, _create_document_record,
      _handle_processing_failure]
  · intro doc hdoc
    simp [process_document_pipeline, pipelineCore, hs, hsd, envEmbedFail,
      updateUploadStatus, _get_or_create_document_record, _create_document_record,
      _handle_processing_failure] at hdoc
    rcases hdoc with h | h
    · exact hdocs doc h
    · rw [h]
      simp

/-- Witness for C6: the broken failure handling evaluated on a concrete
pending session with an empty document table. -/
theorem c6_failure_never_recorded_witness :
    ((process_document_pipeline "u1" envEmbedFail stPending).1 =
      Except.error "embedding model error") ∧
    (_determine_failure_type "embedding model error" = "processing_failed") ∧
    (_determine_failure_type "file not found: uploads/u1/a.pdf" = "upload_failed") ∧
    ((process_document_pipeline "u1" envEmbedFail stPending).2.session.map (·.status) =
      some "processing") ∧
    (∀ doc ∈ (process_document_pipeline "u1" envEmbedFail stPending).2.documents,
      doc.status ≠ "failed") :=
  c6_failure_never_recorded stPending
    { id := "u1", filename := "a.pdf", status := "pending", document_id := none,
      error_message := none }
    rfl rfl (by simp [stPending])
